import Mathlib

/-!
# Verification of the adhan prayer-times scheduler (`src/main.go`)

Shallow embedding of the core scheduling logic of the `adhan` program:
the next-event selector `getNextPrayerTime`, one cycle of the polling
loop `checkPrayerTimes`, and the interactive command handler
`handleUserInput`.

Times are zero-padded "HH:MM" strings compared with Go's built-in
string comparison, which for these ASCII strings coincides with the
lexicographic order on `String` used here.  Calls to `time.Now()` in
the Go source are lifted into explicit parameters (`now`, `now1`,
`now2`), and the fallible HTTP fetch `getPrayerTimes` is modelled as
an `Except String Timings` input.
-/

namespace Adhan

/-- The `Timings` struct of `main.go` (nine string fields, in the
source's field order). -/
structure Timings where
  Fajr : String
  Sunrise : String
  Dhuhr : String
  Asr : String
  Sunset : String
  Maghrib : String
  Isha : String
  Imsak : String
  Midnight : String
deriving Repr, DecidableEq

/-- The `prayers` slice built inside `getNextPrayerTime`
(`main.go:72-82`): the six canonical events in day order, each paired
with its time from `timings`.  `Sunset`, `Imsak` and `Midnight` are
not included. -/
def prayers (timings : Timings) : List (String × String) :=
  [("Fajr", timings.Fajr),
   ("Sunrise", timings.Sunrise),
   ("Dhuhr", timings.Dhuhr),
   ("Asr", timings.Asr),
   ("Maghrib", timings.Maghrib),
   ("Isha", timings.Isha)]

/-- Go's built-in `<` on strings: byte-wise lexicographic comparison,
which on UTF-8 encoded strings coincides with the lexicographic order
on the underlying character lists. -/
def goStringLt (s t : String) : Bool :=
  decide (s.data < t.data)

/-- `goStringLt` agrees with the `<` order on `String`. -/
theorem goStringLt_eq_decide (s t : String) : goStringLt s t = decide (s < t) :=
  decide_eq_decide.mpr String.lt_iff_toList_lt.symm

/-- `getNextPrayerTime` (`main.go:69-92`).  The Go function samples
`time.Now().Format("15:04")` internally; that sample is lifted to the
explicit parameter `currentTime`.  The loop `for _, prayer := range
prayers { if currentTime < prayer.Time { return ... } }` is the first
element satisfying the strict comparison; the fall-through return is
`prayers[0].Name, timings.Fajr`. -/
def getNextPrayerTime (currentTime : String) (timings : Timings) : String × String :=
  match (prayers timings).find? (fun prayer => goStringLt currentTime prayer.2) with
  | some prayer => prayer
  | none => ("Fajr", timings.Fajr)

/-- The element of `prayers timings` at index `i` (with an irrelevant
default for out-of-range `i`, which never occurs below). -/
def prayerAt (timings : Timings) (i : Nat) : String × String :=
  (prayers timings).getD i ("Fajr", "")

/-- The Schedule invariant of the spec's data model: the six canonical
events are ordered ascending by time-of-day. -/
def wellOrdered (t : Timings) : Prop :=
  t.Fajr < t.Sunrise ∧ t.Sunrise < t.Dhuhr ∧ t.Dhuhr < t.Asr ∧
    t.Asr < t.Maghrib ∧ t.Maghrib < t.Isha

/-- Unfolding of the selector's scan into the six successive strict
comparisons. -/
theorem getNextPrayerTime_eq (t : Timings) (now : String) :
    getNextPrayerTime now t =
      if now < t.Fajr then ("Fajr", t.Fajr)
      else if now < t.Sunrise then ("Sunrise", t.Sunrise)
      else if now < t.Dhuhr then ("Dhuhr", t.Dhuhr)
      else if now < t.Asr then ("Asr", t.Asr)
      else if now < t.Maghrib then ("Maghrib", t.Maghrib)
      else if now < t.Isha then ("Isha", t.Isha)
      else ("Fajr", t.Fajr) := by
  by_cases h1 : now < t.Fajr <;>
    by_cases h2 : now < t.Sunrise <;>
    by_cases h3 : now < t.Dhuhr <;>
    by_cases h4 : now < t.Asr <;>
    by_cases h5 : now < t.Maghrib <;>
    by_cases h6 : now < t.Isha <;>
    simp [getNextPrayerTime, prayers, List.find?, goStringLt_eq_decide,
      h1, h2, h3, h4, h5, h6]

/-- The schedule of the spec's end-to-end example (§8); the three
informational fields not in the example are left empty. -/
def exampleTimings : Timings :=
  { Fajr := "05:30", Sunrise := "06:45", Dhuhr := "12:15", Asr := "15:40",
    Sunset := "", Maghrib := "18:20", Isha := "19:45", Imsak := "", Midnight := "" }

/-- The all-empty zero value `Timings{}` that `main` passes to the
selector when the startup fetch fails (`main.go:214-219`). -/
def zeroTimings : Timings :=
  { Fajr := "", Sunrise := "", Dhuhr := "", Asr := "",
    Sunset := "", Maghrib := "", Isha := "", Imsak := "", Midnight := "" }

theorem prayerAt_0 (t : Timings) : prayerAt t 0 = ("Fajr", t.Fajr) := rfl

theorem prayerAt_1 (t : Timings) : prayerAt t 1 = ("Sunrise", t.Sunrise) := rfl

theorem prayerAt_2 (t : Timings) : prayerAt t 2 = ("Dhuhr", t.Dhuhr) := rfl

theorem prayerAt_3 (t : Timings) : prayerAt t 3 = ("Asr", t.Asr) := rfl

theorem prayerAt_4 (t : Timings) : prayerAt t 4 = ("Maghrib", t.Maghrib) := rfl

theorem prayerAt_5 (t : Timings) : prayerAt t 5 = ("Isha", t.Isha) := rfl

/-- The `<` order on `String` restated on the underlying character
lists (which is how Go's byte-wise comparison reads on UTF-8 data);
the list form is what concrete witnesses evaluate. -/
theorem string_lt_iff_data (s t : String) : s < t ↔ s.data < t.data :=
  String.lt_iff_toList_lt

/-- The `≤` order on `String` restated on the underlying character
lists. -/
theorem string_le_iff_data (s t : String) : s ≤ t ↔ s.data ≤ t.data :=
  String.le_iff_toList_le

/-- C1: for a six-event schedule scanned in day order
(Fajr, Sunrise, Dhuhr, Asr, Maghrib, Isha), `getNextPrayerTime`
returns the first event whose time is strictly greater than `now`;
in particular, when `now` is strictly below every event's time (hence
below Fajr's), it returns the Fajr event. -/
theorem selects_first_event_after_now (t : Timings) (now : String) (i : Nat)
    (hi : i < 6) (hgt : now < (prayerAt t i).2)
    (hfirst : ∀ j, j < i → ¬ now < (prayerAt t j).2) :
    getNextPrayerTime now t = prayerAt t i ∧
      (now < t.Fajr → getNextPrayerTime now t = ("Fajr", t.Fajr)) := by
  refine ⟨?_, fun h => by simp [getNextPrayerTime_eq, h]⟩
  interval_cases i
  · rw [prayerAt_0] at hgt ⊢
    simp [getNextPrayerTime_eq, hgt]
  · have h0 := hfirst 0 (by norm_num)
    rw [prayerAt_0] at h0
    rw [prayerAt_1] at hgt ⊢
    simp [getNextPrayerTime_eq, hgt, h0]
  · have h0 := hfirst 0 (by norm_num)
    have h1 := hfirst 1 (by norm_num)
    rw [prayerAt_0] at h0
    rw [prayerAt_1] at h1
    rw [prayerAt_2] at hgt ⊢
    simp [getNextPrayerTime_eq, hgt, h0, h1]
  · have h0 := hfirst 0 (by norm_num)
    have h1 := hfirst 1 (by norm_num)
    have h2 := hfirst 2 (by norm_num)
    rw [prayerAt_0] at h0
    rw [prayerAt_1] at h1
    rw [prayerAt_2] at h2
    rw [prayerAt_3] at hgt ⊢
    simp [getNextPrayerTime_eq, hgt, h0, h1, h2]
  · have h0 := hfirst 0 (by norm_num)
    have h1 := hfirst 1 (by norm_num)
    have h2 := hfirst 2 (by norm_num)
    have h3 := hfirst 3 (by norm_num)
    rw [prayerAt_0] at h0
    rw [prayerAt_1] at h1
    rw [prayerAt_2] at h2
    rw [prayerAt_3] at h3
    rw [prayerAt_4] at hgt ⊢
    simp [getNextPrayerTime_eq, hgt, h0, h1, h2, h3]
  · have h0 := hfirst 0 (by norm_num)
    have h1 := hfirst 1 (by norm_num)
    have h2 := hfirst 2 (by norm_num)
    have h3 := hfirst 3 (by norm_num)
    have h4 := hfirst 4 (by norm_num)
    rw [prayerAt_0] at h0
    rw [prayerAt_1] at h1
    rw [prayerAt_2] at h2
    rw [prayerAt_3] at h3
    rw [prayerAt_4] at h4
    rw [prayerAt_5] at hgt ⊢
    simp [getNextPrayerTime_eq, hgt, h0, h1, h2, h3, h4]

/-- Concrete instantiation of `selects_first_event_after_now`: on the
example schedule with `now = "07:00"`, index 2 (Dhuhr) is the first
event strictly later than `now`, and the selector returns it. -/
theorem selects_first_event_after_now_witness :
    (2 : Nat) < 6 ∧ "07:00" < (prayerAt exampleTimings 2).2 ∧
      getNextPrayerTime "07:00" exampleTimings = prayerAt exampleTimings 2 := by
  have hgt : "07:00" < (prayerAt exampleTimings 2).2 := by
    rw [string_lt_iff_data]; decide
  have hfirst : ∀ j, j < 2 → ¬ "07:00" < (prayerAt exampleTimings j).2 := by
    intro j hj
    interval_cases j <;> (rw [string_lt_iff_data]; decide)
  exact ⟨by norm_num, hgt,
    (selects_first_event_after_now exampleTimings "07:00" 2 (by norm_num) hgt hfirst).1⟩

/-- C3: when `now` is at or past every event's time, the selector
falls through its scan and returns `(prayers[0].Name, timings.Fajr)`,
i.e. the name Fajr paired with this schedule's own Fajr time. -/
theorem all_passed_wraps_to_first (t : Timings) (now : String)
    (hall : ∀ p ∈ prayers t, p.2 ≤ now) :
    getNextPrayerTime now t = ("Fajr", t.Fajr) := by
  have hF := hall ("Fajr", t.Fajr) (by simp [prayers])
  have hS := hall ("Sunrise", t.Sunrise) (by simp [prayers])
  have hD := hall ("Dhuhr", t.Dhuhr) (by simp [prayers])
  have hA := hall ("Asr", t.Asr) (by simp [prayers])
  have hM := hall ("Maghrib", t.Maghrib) (by simp [prayers])
  have hI := hall ("Isha", t.Isha) (by simp [prayers])
  simp only at hF hS hD hA hM hI
  simp [getNextPrayerTime_eq, not_lt.mpr hF, not_lt.mpr hS, not_lt.mpr hD,
    not_lt.mpr hA, not_lt.mpr hM, not_lt.mpr hI]

/-- Concrete instantiation of `all_passed_wraps_to_first`: on the
example schedule every time is at or before `"20:00"`, and the
selector wraps to `("Fajr", "05:30")`. -/
theorem all_passed_wraps_to_first_witness :
    (∀ p ∈ prayers exampleTimings, p.2 ≤ "20:00") ∧
      getNextPrayerTime "20:00" exampleTimings = ("Fajr", "05:30") := by
  have hall : ∀ p ∈ prayers exampleTimings, p.2 ≤ "20:00" := by
    intro p hp
    simp [prayers, exampleTimings] at hp
    rcases hp with h | h | h | h | h | h <;>
      (rw [h, string_le_iff_data]; decide)
  exact ⟨hall, all_passed_wraps_to_first exampleTimings "20:00" hall⟩

/-- C5: the spec's end-to-end example on the concrete schedule
{Fajr 05:30, Sunrise 06:45, Dhuhr 12:15, Asr 15:40, Maghrib 18:20,
Isha 19:45}: at 07:00 the selector returns Dhuhr, at 20:00 it wraps
to Fajr, and at 18:20 it returns Isha, not Maghrib. -/
theorem end_to_end_example :
    getNextPrayerTime "07:00" exampleTimings = ("Dhuhr", "12:15") ∧
      getNextPrayerTime "20:00" exampleTimings = ("Fajr", "05:30") ∧
      getNextPrayerTime "18:20" exampleTimings = ("Isha", "19:45") ∧
      (getNextPrayerTime "18:20" exampleTimings).1 ≠ "Maghrib" := by
  refine ⟨rfl, rfl, rfl, ?_⟩
  decide

/-- C2: on a schedule satisfying the Schedule ordering invariant
(the six canonical times ascend strictly through the day), when `now`
equals event `i`'s time the selector skips it — the strict comparison
treats it as already current — and returns event `i+1`, wrapping to
event `0` when `i` is last. -/
theorem equal_time_selects_successor (t : Timings) (now : String)
    (hw : wellOrdered t) (i : Nat) (hi : i < 6)
    (heq : now = (prayerAt t i).2) :
    getNextPrayerTime now t = prayerAt t ((i + 1) % 6) ∧
      getNextPrayerTime now t ≠ prayerAt t i := by
  obtain ⟨w1, w2, w3, w4, w5⟩ := hw
  interval_cases i
  · rw [prayerAt_0] at heq
    subst heq
    rw [getNextPrayerTime_eq]
    simp [lt_irrefl, w1, prayerAt_1, prayerAt_0]
  · rw [prayerAt_1] at heq
    subst heq
    rw [getNextPrayerTime_eq]
    have nF : ¬ t.Sunrise < t.Fajr := lt_asymm w1
    simp [nF, lt_irrefl, w2, prayerAt_2, prayerAt_1]
  · rw [prayerAt_2] at heq
    subst heq
    rw [getNextPrayerTime_eq]
    have nF : ¬ t.Dhuhr < t.Fajr := lt_asymm (w1.trans w2)
    have nS : ¬ t.Dhuhr < t.Sunrise := lt_asymm w2
    simp [nF, nS, lt_irrefl, w3, prayerAt_3, prayerAt_2]
  · rw [prayerAt_3] at heq
    subst heq
    rw [getNextPrayerTime_eq]
    have nF : ¬ t.Asr < t.Fajr := lt_asymm ((w1.trans w2).trans w3)
    have nS : ¬ t.Asr < t.Sunrise := lt_asymm (w2.trans w3)
    have nD : ¬ t.Asr < t.Dhuhr := lt_asymm w3
    simp [nF, nS, nD, lt_irrefl, w4, prayerAt_4, prayerAt_3]
  · rw [prayerAt_4] at heq
    subst heq
    rw [getNextPrayerTime_eq]
    have nF : ¬ t.Maghrib < t.Fajr := lt_asymm (((w1.trans w2).trans w3).trans w4)
    have nS : ¬ t.Maghrib < t.Sunrise := lt_asymm ((w2.trans w3).trans w4)
    have nD : ¬ t.Maghrib < t.Dhuhr := lt_asymm (w3.trans w4)
    have nA : ¬ t.Maghrib < t.Asr := lt_asymm w4
    simp [nF, nS, nD, nA, lt_irrefl, w5, prayerAt_5, prayerAt_4]
  · rw [prayerAt_5] at heq
    subst heq
    rw [getNextPrayerTime_eq]
    have nF : ¬ t.Isha < t.Fajr := lt_asymm ((((w1.trans w2).trans w3).trans w4).trans w5)
    have nS : ¬ t.Isha < t.Sunrise := lt_asymm (((w2.trans w3).trans w4).trans w5)
    have nD : ¬ t.Isha < t.Dhuhr := lt_asymm ((w3.trans w4).trans w5)
    have nA : ¬ t.Isha < t.Asr := lt_asymm (w4.trans w5)
    have nM : ¬ t.Isha < t.Maghrib := lt_asymm w5
    simp [nF, nS, nD, nA, nM, lt_irrefl, prayerAt_0, prayerAt_5]

/-- Concrete instantiation of `equal_time_selects_successor`: on the
example schedule with `now = "18:20"` (exactly Maghrib's time, index
4), the selector returns the successor event, Isha. -/
theorem equal_time_selects_successor_witness :
    wellOrdered exampleTimings ∧ "18:20" = (prayerAt exampleTimings 4).2 ∧
      getNextPrayerTime "18:20" exampleTimings =
        prayerAt exampleTimings ((4 + 1) % 6) := by
  have hw : wellOrdered exampleTimings := by
    unfold wellOrdered
    refine ⟨?_, ?_, ?_, ?_, ?_⟩ <;> (rw [string_lt_iff_data]; decide)
  exact ⟨hw, rfl,
    (equal_time_selects_successor exampleTimings "18:20" hw 4 (by norm_num) rfl).1⟩

/-- The selector's result is always one of the six scanned events
(the wrap-around result equals the head of the scan list). -/
theorem getNextPrayerTime_mem (now : String) (t : Timings) :
    getNextPrayerTime now t ∈ prayers t := by
  unfold getNextPrayerTime
  cases hfind : (prayers t).find? (fun prayer => goStringLt now prayer.2) with
  | some p => exact List.mem_of_find?_eq_some hfind
  | none => simp [prayers]

/-- C7: the selector is deterministic in its two explicit inputs (two
calls on identical pairs agree), and it always produces a result that
is one of the six scanned events — no side effects or failure modes. -/
theorem selector_pure_total (now : String) (t : Timings) :
    getNextPrayerTime now t = getNextPrayerTime now t ∧
      getNextPrayerTime now t ∈ prayers t :=
  ⟨rfl, getNextPrayerTime_mem now t⟩

/-- C9: on every `Timings` value — including the zero value produced
when the startup fetch fails — the selector returns one of the six
canonical events (never Sunset, Imsak or Midnight), paired with that
schedule's own field value; on the all-empty zero value it returns
`("Fajr", "")`. -/
theorem selector_total_on_all_timings (now : String) (t : Timings) :
    (getNextPrayerTime now t).1 ∈
        (["Fajr", "Sunrise", "Dhuhr", "Asr", "Maghrib", "Isha"] : List String) ∧
      getNextPrayerTime now t ∈ prayers t ∧
      getNextPrayerTime now zeroTimings = ("Fajr", "") := by
  have hmem : getNextPrayerTime now t ∈ prayers t := getNextPrayerTime_mem now t
  refine ⟨?_, hmem, ?_⟩
  · simp [prayers] at hmem
    rcases hmem with h | h | h | h | h | h <;> simp [h]
  · unfold getNextPrayerTime
    have hlt : ∀ s : String, goStringLt s "" = false := by
      intro s
      simp [goStringLt]
    simp [prayers, zeroTimings, List.find?, hlt]

/-- The notification message built at `main.go:204`:
`fmt.Sprintf("It's time for %s prayer.", nextPrayer)`. -/
def alertMessage (nextPrayer : String) : String :=
  "It's time for " ++ nextPrayer ++ " prayer."

/-- The match check of `checkPrayerTimes` (`main.go:201-205`): the
notification dispatched when the freshly sampled current time equals
the selected next event's time, `none` otherwise. -/
def matchAlert (nextPrayer nextTime currentTime : String) : Option (String × String) :=
  if currentTime = nextTime then some ("Prayer Time", alertMessage nextPrayer) else none

/-- The alert dispatched by one successful poll-loop cycle
(`main.go:198-205`): `now1` is the clock sample taken inside
`getNextPrayerTime`, `now2` the fresh sample taken at the match
check. -/
def pollCycleAlert (t : Timings) (now1 now2 : String) : Option (String × String) :=
  matchAlert (getNextPrayerTime now1 t).1 (getNextPrayerTime now1 t).2 now2

/-- C4: in a poll-loop cycle the Alert Sink is invoked iff the fresh
clock sample equals the selected next event's time; when it is
invoked, the title is exactly "Prayer Time" and the message names the
matched event as "It's time for <name> prayer."; otherwise no alert
is dispatched. -/
theorem alert_iff_exact_match (t : Timings) (now1 now2 : String) :
    (pollCycleAlert t now1 now2 ≠ none ↔ now2 = (getNextPrayerTime now1 t).2) ∧
      (now2 = (getNextPrayerTime now1 t).2 →
        pollCycleAlert t now1 now2 =
          some ("Prayer Time",
            "It's time for " ++ (getNextPrayerTime now1 t).1 ++ " prayer.")) ∧
      (now2 ≠ (getNextPrayerTime now1 t).2 → pollCycleAlert t now1 now2 = none) := by
  by_cases h : now2 = (getNextPrayerTime now1 t).2 <;>
    simp [pollCycleAlert, matchAlert, alertMessage, h]

/-- Concrete instantiation of `alert_iff_exact_match`: on the example
schedule, with the selector run at "07:00" and the match check
sampling "12:15" (Dhuhr's time), the alert fires with the fixed title
and the message naming Dhuhr. -/
theorem alert_iff_exact_match_witness :
    "12:15" = (getNextPrayerTime "07:00" exampleTimings).2 ∧
      pollCycleAlert exampleTimings "07:00" "12:15" =
        some ("Prayer Time", "It's time for Dhuhr prayer.") := by
  have h : "12:15" = (getNextPrayerTime "07:00" exampleTimings).2 := by decide
  exact ⟨h, (alert_iff_exact_match exampleTimings "07:00" "12:15").2.1 h⟩

/-- The observable steps of the poll loop `checkPrayerTimes`
(`main.go:187-209`): the log line on a failed fetch, the sleeps, the
per-cycle status line, and a dispatched notification. -/
inductive PollEvent where
  | logFailure (msg : String)
  | sleepMinutes (n : Nat)
  | statusLine (name time : String)
  | notify (title msg : String)
deriving Repr, DecidableEq

/-- One iteration of the `for` loop of `checkPrayerTimes`
(`main.go:190-208`), as the list of observable events it emits.  The
fetch outcome is the explicit input `fetched`; `now1` and `now2` are
the two clock samples of a successful cycle.  On a fetch error the
iteration logs, sleeps one minute and retries (`continue`); on
success it prints the status line, dispatches the conditional alert,
and sleeps one minute. -/
def pollCycle (fetched : Except String Timings) (now1 now2 : String) : List PollEvent :=
  match fetched with
  | Except.error e => [PollEvent.logFailure e, PollEvent.sleepMinutes 1]
  | Except.ok timings =>
      PollEvent.statusLine (getNextPrayerTime now1 timings).1
          (getNextPrayerTime now1 timings).2 ::
        ((pollCycleAlert timings now1 now2).toList.map fun a => PollEvent.notify a.1 a.2) ++
          [PollEvent.sleepMinutes 1]

/-- The unbounded poll loop, run over a (finite prefix of its)
environment: one `(fetch outcome, clock sample, clock sample)` triple
per iteration.  The loop body never exits, so the trace of `n`
iterations is the concatenation of `n` cycle traces. -/
def pollTrace : List (Except String Timings × String × String) → List PollEvent
  | [] => []
  | (r, now1, now2) :: rest => pollCycle r now1 now2 ++ pollTrace rest

/-- C6: a failed fetch is logged and followed by a fixed 1-minute
sleep, after which the loop goes on to the next fetch; this holds for
arbitrarily many consecutive failures (no retry limit, no backoff,
never fatal); and after a fetch that fails once and then succeeds the
loop still reaches selection and reports the selected event. -/
theorem fetch_failure_logged_retried_forever (e : String) (t : Timings)
    (n1 n2 now1 now2 : String)
    (rest : List (Except String Timings × String × String)) (k : Nat) :
    pollTrace ((Except.error e, n1, n2) :: rest) =
        PollEvent.logFailure e :: PollEvent.sleepMinutes 1 :: pollTrace rest ∧
      pollTrace (List.replicate k (Except.error e, n1, n2) ++ rest) =
        (List.replicate k
            [PollEvent.logFailure e, PollEvent.sleepMinutes 1]).flatten ++ pollTrace rest ∧
      (pollTrace [(Except.error e, n1, n2), (Except.ok t, now1, now2)]).take 3 =
        [PollEvent.logFailure e, PollEvent.sleepMinutes 1,
         PollEvent.statusLine (getNextPrayerTime now1 t).1 (getNextPrayerTime now1 t).2] := by
  refine ⟨rfl, ?_, rfl⟩
  induction k with
  | zero => simp [List.replicate]
  | succ n ih => simp [List.replicate_succ, pollTrace, pollCycle, ih]

/-- C10: on a schedule whose six times strictly increase, if the two
clock samples of a cycle agree (the minute did not roll over between
selection and the match check), the alert can never fire: the
selected time is strictly later than the sample in the non-wrap case
and strictly earlier in the wrap case. -/
theorem no_alert_when_clock_stable (t : Timings) (now : String)
    (hw : wellOrdered t) :
    (now < t.Isha → now < (getNextPrayerTime now t).2) ∧
      (t.Isha ≤ now → (getNextPrayerTime now t).2 < now) ∧
      pollCycleAlert t now now = none := by
  obtain ⟨w1, w2, w3, w4, w5⟩ := hw
  have fajr_lt_isha : t.Fajr < t.Isha := (((w1.trans w2).trans w3).trans w4).trans w5
  have h1 : now < t.Isha → now < (getNextPrayerTime now t).2 := by
    intro h
    rw [getNextPrayerTime_eq]
    split_ifs with c1 c2 c3 c4 c5
    · exact c1
    · exact c2
    · exact c3
    · exact c4
    · exact c5
    · exact h
  have h2 : t.Isha ≤ now → (getNextPrayerTime now t).2 < now := by
    intro h
    rw [getNextPrayerTime_eq]
    split_ifs with c1 c2 c3 c4 c5 c6
    · exact absurd h (not_le.mpr (c1.trans fajr_lt_isha))
    · exact absurd h (not_le.mpr (c2.trans ((((w2.trans w3).trans w4).trans w5))))
    · exact absurd h (not_le.mpr (c3.trans (((w3.trans w4).trans w5))))
    · exact absurd h (not_le.mpr (c4.trans ((w4.trans w5))))
    · exact absurd h (not_le.mpr (c5.trans w5))
    · exact absurd h (not_le.mpr c6)
    · exact lt_of_lt_of_le fajr_lt_isha h
  refine ⟨h1, h2, ?_⟩
  have key : now ≠ (getNextPrayerTime now t).2 := by
    rcases lt_or_le now t.Isha with h | h
    · exact ne_of_lt (h1 h)
    · exact ne_of_gt (h2 h)
  simp [pollCycleAlert, matchAlert, key]

/-- Concrete instantiation of `no_alert_when_clock_stable`: the
example schedule strictly increases, and with both samples at
"07:00" no alert is dispatched. -/
theorem no_alert_when_clock_stable_witness :
    wellOrdered exampleTimings ∧
      pollCycleAlert exampleTimings "07:00" "07:00" = none := by
  have hw : wellOrdered exampleTimings := by
    unfold wellOrdered
    refine ⟨?_, ?_, ?_, ?_, ?_⟩ <;> (rw [string_lt_iff_data]; decide)
  exact ⟨hw, (no_alert_when_clock_stable exampleTimings "07:00" hw).2.2⟩

/-- Go's `strings.TrimSpace` applied at `main.go:149`: remove leading
and trailing whitespace. -/
def trimSpace (s : String) : String :=
  String.mk (((s.data.dropWhile Char.isWhitespace).reverse.dropWhile
    Char.isWhitespace).reverse)

/-- The observable outcome of one iteration of the command loop. -/
inductive CmdEffect where
  | printNext (name time : String)
  | renderTable (rows : List (List String))
  | quit
  | invalid
  | logFetchError (e : String)
deriving Repr, DecidableEq

/-- One iteration of the `for` loop of `handleUserInput`
(`main.go:143-185`): the raw line read from stdin is trimmed and
dispatched by the `switch`; the fetch outcome of `getPrayerTimes` and
the clock sample inside `getNextPrayerTime` are explicit inputs.  A
fetch error in `next`/`all` is logged and the iteration `continue`s;
`q` calls `os.Exit(0)`; anything else prints "Invalid command". -/
def handleUserInput (raw : String) (fetch : Except String Timings)
    (now : String) : CmdEffect :=
  let command := trimSpace raw
  if command = "next" then
    match fetch with
    | Except.error e => CmdEffect.logFetchError e
    | Except.ok timings =>
        CmdEffect.printNext (getNextPrayerTime now timings).1
          (getNextPrayerTime now timings).2
  else if command = "all" then
    match fetch with
    | Except.error e => CmdEffect.logFetchError e
    | Except.ok timings =>
        CmdEffect.renderTable
          [["Fajr", timings.Fajr], ["Sunrise", timings.Sunrise],
           ["Dhuhr", timings.Dhuhr], ["Asr", timings.Asr],
           ["Maghrib", timings.Maghrib], ["Isha", timings.Isha]]
  else if command = "q" then CmdEffect.quit
  else CmdEffect.invalid

/-- Whether the command loop re-prompts after this outcome (only the
quit command terminates the process, `main.go:178-180`). -/
def loopContinues : CmdEffect → Bool
  | CmdEffect.quit => false
  | _ => true

/-- C8: the command handler recognizes exactly `next`, `all` and `q`:
any other (trimmed) input yields the invalid-command response and the
loop re-prompts; `q` terminates; a fetch error during `next` or `all`
is logged, the loop continues, and no status/table output is
produced; on a successful fetch `next` reports the selected next
event and `all` renders the six-event table. -/
theorem command_surface_cases (raw : String) (fetch : Except String Timings)
    (now : String) :
    (trimSpace raw ≠ "next" → trimSpace raw ≠ "all" → trimSpace raw ≠ "q" →
      handleUserInput raw fetch now = CmdEffect.invalid ∧
        loopContinues CmdEffect.invalid = true) ∧
      (trimSpace raw = "q" →
        handleUserInput raw fetch now = CmdEffect.quit ∧
          loopContinues CmdEffect.quit = false) ∧
      (∀ e, fetch = Except.error e →
        trimSpace raw = "next" ∨ trimSpace raw = "all" →
        handleUserInput raw fetch now = CmdEffect.logFetchError e ∧
          loopContinues (CmdEffect.logFetchError e) = true) ∧
      (∀ t, fetch = Except.ok t → trimSpace raw = "next" →
        handleUserInput raw fetch now =
          CmdEffect.printNext (getNextPrayerTime now t).1
            (getNextPrayerTime now t).2) ∧
      (∀ t, fetch = Except.ok t → trimSpace raw = "all" →
        handleUserInput raw fetch now = CmdEffect.renderTable
          [["Fajr", t.Fajr], ["Sunrise", t.Sunrise], ["Dhuhr", t.Dhuhr],
           ["Asr", t.Asr], ["Maghrib", t.Maghrib], ["Isha", t.Isha]]) := by
  refine ⟨?_, ?_, ?_, ?_, ?_⟩
  · intro h1 h2 h3
    simp [handleUserInput, h1, h2, h3, loopContinues]
  · intro h
    have h1 : trimSpace raw ≠ "next" := by rw [h]; decide
    have h2 : trimSpace raw ≠ "all" := by rw [h]; decide
    simp [handleUserInput, h1, h2, h, loopContinues]
  · intro e hf hor
    subst hf
    rcases hor with h | h <;> simp [handleUserInput, h, loopContinues]
  · intro t hf h
    subst hf
    simp [handleUserInput, h]
  · intro t hf h
    subst hf
    simp [handleUserInput, h]

/-- Concrete instantiation of `command_surface_cases`: the input
"hello" is not a recognized command and yields the invalid-command
outcome, with the loop continuing. -/
theorem command_surface_cases_witness :
    trimSpace "hello" ≠ "next" ∧ trimSpace "hello" ≠ "all" ∧
      trimSpace "hello" ≠ "q" ∧
      handleUserInput "hello" (Except.ok exampleTimings) "12:00" =
        CmdEffect.invalid := by
  have h1 : trimSpace "hello" ≠ "next" := by decide
  have h2 : trimSpace "hello" ≠ "all" := by decide
  have h3 : trimSpace "hello" ≠ "q" := by decide
  exact ⟨h1, h2, h3,
    ((command_surface_cases "hello" (Except.ok exampleTimings) "12:00").1 h1 h2 h3).1⟩

end Adhan
